import Mathlib

/-!
# Verification of the osseous AXI bridge accessors and the Vanadis SRA instruction

Shallow embedding of

* `src/src/sst/elements/osseous/rtlcomponent.h` (`mm_rresp_t`, the AXI accessors
  of `Rtlmodel`),
* `src/src/sst/elements/vanadis/inst/vsra.h`
  (`VanadisShiftRightArithmeticInstruction::execute`).

The bodies of `AXI_tick`, `generateReadRequest` and `generateWriteRequest` are
not in the header; the definitions that stand for them follow the
specification and say so in their doc comments.

Conventions of the embedding:

* a `std::queue<T>` is a `List T`; the front of the queue is the head of the
  list, `push` appends at the back and `pop` drops the head;
* a `std::vector<char>` is a `List Nat` (one entry per byte);
* `uint64_t` values are naturals, `int64_t` values are integers obtained from a
  64-bit pattern by two's complement;
* an operation with a precondition in C++ (`front()` of an empty queue) returns
  an `Option`, `none` standing for the violated precondition.
-/

namespace Osseous

/-! ## `mm_rresp_t` (rtlcomponent.h, lines 40-58) -/

/-- One read response: the fields `id`, `data`, `last` of `struct mm_rresp_t`.
The three-argument constructor `mm_rresp_t(id, data, last)` is `mm_rresp_t.mk`. -/
structure mm_rresp_t where
  id : Nat
  data : List Nat
  last : Bool
deriving DecidableEq, Repr

/-- The default constructor `mm_rresp_t()`: it assigns `id = 0` and
`last = false` and leaves `data` default-constructed, i.e. the empty vector. -/
def mm_rresp_t.default : mm_rresp_t :=
  { id := 0, data := [], last := false }

/-! ## The AXI variables of `Rtlmodel` (rtlcomponent.h, lines 232-247) -/

/-- The members of `Rtlmodel` under the comment `//AXI variables` that the AXI
accessors read. -/
structure Rtlmodel where
  store_inflight : Bool
  store_addr : Nat
  store_id : Nat
  store_size : Nat
  store_count : Nat
  dummy_data : List Nat
  bresp : List Nat
  rresp : List mm_rresp_t
  cycle : Nat
deriving DecidableEq, Repr

/-- The method `std::queue::empty`. -/
def queue_empty {α : Type} (q : List α) : Bool := q.isEmpty

/-- The method `std::queue::front`; it has no value on an empty queue. -/
def queue_front {α : Type} (q : List α) : Option α := q.head?

/-- What `&v[0]` denotes: the vector `v` that is indexed and the index. -/
structure CharRef where
  buffer : List Nat
  index : Nat
deriving DecidableEq, Repr

/-- The indexed vector has an element at the index. -/
def CharRef.inBounds (p : CharRef) : Bool := decide (p.index < p.buffer.length)

/-! ## The AXI accessors (rtlcomponent.h, lines 122-132) -/

/-- Line 122: `bool AXI_ar_ready() { return true; }`. -/
def AXI_ar_ready (_s : Rtlmodel) : Bool := true

/-- Line 123: `bool AXI_aw_ready() { return !store_inflight; }`. -/
def AXI_aw_ready (s : Rtlmodel) : Bool := !s.store_inflight

/-- Line 124: `bool AXI_w_ready() { return store_inflight; }`. -/
def AXI_w_ready (s : Rtlmodel) : Bool := s.store_inflight

/-- Line 125: `bool AXI_b_valid() { return !bresp.empty(); }`. -/
def AXI_b_valid (s : Rtlmodel) : Bool := !queue_empty s.bresp

/-- Line 126: `uint64_t AXI_b_resp() { return 0; }`. -/
def AXI_b_resp (_s : Rtlmodel) : Nat := 0

/-- Line 127:
`uint64_t AXI_b_id() { return AXI_b_valid() ? bresp.front() : 0; }`. -/
def AXI_b_id (s : Rtlmodel) : Option Nat :=
  if AXI_b_valid s then queue_front s.bresp else some 0

/-- Line 128: `bool AXI_r_valid() { return !rresp.empty(); }`. -/
def AXI_r_valid (s : Rtlmodel) : Bool := !queue_empty s.rresp

/-- Line 129: `uint64_t AXI_r_resp() { return 0; }`. -/
def AXI_r_resp (_s : Rtlmodel) : Nat := 0

/-- Line 130:
`uint64_t AXI_r_id() { return AXI_r_valid() ? rresp.front().id: 0; }`. -/
def AXI_r_id (s : Rtlmodel) : Option Nat :=
  if AXI_r_valid s then (queue_front s.rresp).map (fun r => r.id) else some 0

/-- Line 131:
`void * AXI_r_data() { return AXI_r_valid() ? &rresp.front().data[0] : &dummy_data[0]; }`.
The result names the vector that is indexed and the index 0. -/
def AXI_r_data (s : Rtlmodel) : Option CharRef :=
  if AXI_r_valid s then
    (queue_front s.rresp).map (fun r => { buffer := r.data, index := 0 })
  else
    some { buffer := s.dummy_data, index := 0 }

/-- Line 132:
`bool AXI_r_last() { return AXI_r_valid() ? rresp.front().last : false; }`. -/
def AXI_r_last (s : Rtlmodel) : Option Bool :=
  if AXI_r_valid s then (queue_front s.rresp).map (fun r => r.last) else some false

/-- A state used to instantiate the theorems: one write response and one read
response queued, a write burst in flight. -/
def sampleBusy : Rtlmodel :=
  { store_inflight := true, store_addr := 64, store_id := 3, store_size := 8,
    store_count := 2, dummy_data := [0, 0, 0, 0, 0, 0, 0, 0], bresp := [5, 6],
    rresp := [{ id := 7, data := [1, 2, 3, 4, 5, 6, 7, 8], last := true }],
    cycle := 12 }

/-- A state whose read-response queue holds a default-constructed response. -/
def sampleDefaultFront : Rtlmodel :=
  { store_inflight := false, store_addr := 0, store_id := 0, store_size := 0,
    store_count := 0, dummy_data := [0, 0, 0, 0, 0, 0, 0, 0], bresp := [],
    rresp := [mm_rresp_t.default], cycle := 0 }

/-! ## The tick handler and the request splitter

`AXI_tick`, `generateReadRequest` and `generateWriteRequest` are declared in
rtlcomponent.h (lines 114-115 and 133-138); their bodies are not part of the
sources at hand. They are modelled from the specification (sections 3, 4.1
and 4.2). -/

/-- The kind of a bus request. -/
inductive RequestKind where
  | Read
  | Write
deriving DecidableEq, Repr

/-- The record `BusRequest` of the data model. -/
structure BusRequest where
  axiId : Nat
  virtualAddress : Nat
  byteLength : Nat
  kind : RequestKind
  payload : List Nat
  burstBeats : Nat
deriving DecidableEq, Repr

/-- The translation result of the data model: a physical address or the fault
marker. -/
inductive Translation where
  | physical (address : Nat)
  | fault
deriving DecidableEq, Repr

/-- The record `PhysicalSubRequest` of the data model. -/
structure PhysicalSubRequest where
  localTxnId : Nat
  physicalAddress : Translation
  byteLength : Nat
  byteOffsetWithinParent : Nat
  parentAxiId : Nat
deriving DecidableEq, Repr

/-- The record `PendingEntry` of the data model. -/
structure PendingEntry where
  parentAxiId : Nat
  outstandingSplitCount : Nat
  accumulatedPayload : List Nat
deriving DecidableEq, Repr

/-- Modelled from the spec: the partition step of the Request Splitter (the
bodies of `generateReadRequest` and `generateWriteRequest` are missing).
Section 4.2: partition `[virtualAddress, virtualAddress+byteLength)` into
maximal aligned runs. A run starts at `addr` and extends to the end of the
cache line of `addr` or to the end of the request, whichever comes first; the
result lists the runs as (start address, length). The first argument bounds the
number of runs; `byteLength` is enough since every run has at least one byte. -/
def alignedRuns (cacheLineSize : Nat) : Nat → Nat → Nat → List (Nat × Nat)
  | 0, _, _ => []
  | fuel + 1, addr, len =>
    if len = 0 then []
    else
      let run := min len (cacheLineSize - addr % cacheLineSize)
      (addr, run) :: alignedRuns cacheLineSize fuel (addr + run) (len - run)

/-- Modelled from the spec: the sub-requests of the runs (section 4.2, each run
becoming one `PhysicalSubRequest` with its physical address resolved via the
Memory-Manager capability `resolve`); transaction ids are assigned in order
from `nextTxnId`. -/
def subRequestsOfRuns (resolve : Nat → Translation) (parent : BusRequest) :
    Nat → List (Nat × Nat) → List PhysicalSubRequest
  | _, [] => []
  | nextTxnId, (addr, len) :: rest =>
    { localTxnId := nextTxnId, physicalAddress := resolve addr, byteLength := len,
      byteOffsetWithinParent := addr - parent.virtualAddress,
      parentAxiId := parent.axiId } ::
      subRequestsOfRuns resolve parent (nextTxnId + 1) rest

/-- Modelled from the spec: the Request Splitter of section 4.2 (bodies of
`generateReadRequest` and `generateWriteRequest` missing), common to both
kinds of request. -/
def splitRequest (cacheLineSize : Nat) (resolve : Nat → Translation) (nextTxnId : Nat)
    (req : BusRequest) : List PhysicalSubRequest :=
  subRequestsOfRuns resolve req nextTxnId
    (alignedRuns cacheLineSize req.byteLength req.virtualAddress req.byteLength)

/-- Modelled from the spec: `Rtlmodel::generateReadRequest` (body missing), the
splitter applied to a read request. -/
def generateReadRequest (cacheLineSize : Nat) (resolve : Nat → Translation)
    (nextTxnId : Nat) (req : BusRequest) : List PhysicalSubRequest :=
  splitRequest cacheLineSize resolve nextTxnId { req with kind := RequestKind.Read }

/-- Modelled from the spec: `Rtlmodel::generateWriteRequest` (body missing), the
splitter applied to a write request. -/
def generateWriteRequest (cacheLineSize : Nat) (resolve : Nat → Translation)
    (nextTxnId : Nat) (req : BusRequest) : List PhysicalSubRequest :=
  splitRequest cacheLineSize resolve nextTxnId { req with kind := RequestKind.Write }

/-- The number of cache-line boundaries strictly inside the non-empty range
`[addr, addr+len)`: the line of its last byte minus the line of its first. -/
def boundariesCrossed (cacheLineSize addr len : Nat) : Nat :=
  (addr + len - 1) / cacheLineSize - addr / cacheLineSize

/-- The runs follow one another without gap or overlap, the first starting at
the given address. -/
def contiguousFrom : Nat → List (Nat × Nat) → Bool
  | _, [] => true
  | a, (b, n) :: rest => decide (b = a) && contiguousFrom (a + n) rest

/-- The run (start address, length) is non-empty and its first and last byte
lie in the same cache line. -/
def withinOneLine (cacheLineSize : Nat) (p : Nat × Nat) : Bool :=
  decide (0 < p.2) && decide (p.1 / cacheLineSize = (p.1 + p.2 - 1) / cacheLineSize)

/-- The runs (start address, length) that the sub-requests of a parent stand
for: the parent address plus the offset, and the byte length. -/
def runsOfSubRequests (parent : BusRequest) (subs : List PhysicalSubRequest) :
    List (Nat × Nat) :=
  subs.map (fun s => (parent.virtualAddress + s.byteOffsetWithinParent, s.byteLength))

/-- The per-tick inputs of `AXI_tick` (rtlcomponent.h, lines 133-138). -/
structure TickInputs where
  reset : Bool
  ar_valid : Bool
  ar_addr : Nat
  ar_id : Nat
  ar_size : Nat
  ar_len : Nat
  aw_valid : Bool
  aw_addr : Nat
  aw_id : Nat
  aw_size : Nat
  aw_len : Nat
  w_valid : Bool
  w_strb : Nat
  w_data : List Nat
  w_last : Bool
  r_ready : Bool
  b_ready : Bool
deriving DecidableEq, Repr

/-- Modelled from the spec: the engine state of section 4.1, i.e. the AXI
variables of the header together with the burst accumulation buffer, the
requests forwarded to the splitter (oldest first) and the Pending-Transaction
Table, none of which the header declares as such. -/
structure Engine where
  axi : Rtlmodel
  burst : List Nat
  forwarded : List BusRequest
  pending : List PendingEntry
deriving DecidableEq, Repr

/-- Modelled from the spec: the strobe-masked bytes of one data beat (rule 4);
byte `i` is kept when bit `i` of the strobe is set and is zero otherwise. -/
def strobeMasked (w_strb : Nat) (w_data : List Nat) : List Nat :=
  (List.range w_data.length).zipWith
    (fun i b => if w_strb.testBit i then b else 0) w_data

/-- Modelled from the spec: rule (1) of section 4.1. On reset clear all
internal queues, the Pending-Transaction Table and the store-in-flight
latch. -/
def tickReset (inp : TickInputs) (e : Engine) : Engine :=
  if inp.reset then
    { e with axi := { e.axi with rresp := [], bresp := [], store_inflight := false },
             burst := [], forwarded := [], pending := [] }
  else e

/-- Modelled from the spec: rule (2). If a read-address handshake completes
(valid and ready), register a new `BusRequest` and forward it to the splitter.
How the byte length follows from `size` and `len` is not fixed by the
specification and is the parameter `byteLengthOf`. -/
def tickReadAddress (byteLengthOf : Nat → Nat → Nat) (ar_fire : Bool) (inp : TickInputs)
    (e : Engine) : Engine :=
  if ar_fire then
    { e with forwarded := e.forwarded ++
        [{ axiId := inp.ar_id, virtualAddress := inp.ar_addr,
           byteLength := byteLengthOf inp.ar_size inp.ar_len,
           kind := RequestKind.Read, payload := [], burstBeats := inp.ar_len }] }
  else e

/-- Modelled from the spec: rule (3). If a write-address handshake completes
and write-address-ready was true, latch address, id, size and len and set
store-in-flight. -/
def tickWriteAddress (aw_fire : Bool) (inp : TickInputs) (e : Engine) : Engine :=
  if aw_fire then
    { e with axi := { e.axi with store_inflight := true, store_addr := inp.aw_addr,
                                 store_id := inp.aw_id, store_size := inp.aw_size,
                                 store_count := inp.aw_len },
             burst := [] }
  else e

/-- Modelled from the spec: rule (4). If a write-data handshake completes,
append the strobe-masked bytes to the accumulation buffer; on `last` finalize
the `BusRequest` with the accumulated payload, forward it to the splitter and
clear store-in-flight. -/
def tickWriteData (w_fire : Bool) (inp : TickInputs) (e : Engine) : Engine :=
  if w_fire then
    let acc := e.burst ++ strobeMasked inp.w_strb inp.w_data
    if inp.w_last then
      { e with axi := { e.axi with store_inflight := false },
               burst := [],
               forwarded := e.forwarded ++
                 [{ axiId := e.axi.store_id, virtualAddress := e.axi.store_addr,
                    byteLength := acc.length, kind := RequestKind.Write,
                    payload := acc, burstBeats := e.axi.store_count }] }
    else { e with burst := acc }
  else e

/-- Modelled from the spec: rule (5). If read-ready is asserted and the
read-response queue is non-empty, dequeue its front. -/
def tickReadResponse (inp : TickInputs) (e : Engine) : Engine :=
  if inp.r_ready && AXI_r_valid e.axi then
    { e with axi := { e.axi with rresp := e.axi.rresp.tail } }
  else e

/-- Modelled from the spec: rule (6), the symmetric rule for the
write-response queue. -/
def tickWriteResponse (inp : TickInputs) (e : Engine) : Engine :=
  if inp.b_ready && AXI_b_valid e.axi then
    { e with axi := { e.axi with bresp := e.axi.bresp.tail } }
  else e

/-- Modelled from the spec: `Rtlmodel::AXI_tick` (body missing). The transition
rules (1) to (6) of section 4.1, evaluated once in this order; a handshake
completes when its valid input meets the ready output the engine presented at
the start of the tick. -/
def AXI_tick (byteLengthOf : Nat → Nat → Nat) (e : Engine) (inp : TickInputs) : Engine :=
  let ar_fire := inp.ar_valid && AXI_ar_ready e.axi
  let aw_fire := inp.aw_valid && AXI_aw_ready e.axi
  let w_fire := inp.w_valid && AXI_w_ready e.axi
  tickWriteResponse inp
    (tickReadResponse inp
      (tickWriteData w_fire inp
        (tickWriteAddress aw_fire inp
          (tickReadAddress byteLengthOf ar_fire inp
            (tickReset inp e)))))

/-- An engine state used to instantiate the theorems. -/
def sampleEngine : Engine :=
  { axi := sampleBusy, burst := [9, 9],
    forwarded := [],
    pending := [{ parentAxiId := 7, outstandingSplitCount := 2, accumulatedPayload := [] }] }

/-- Tick inputs with reset asserted, no valid signal and both response-ready
inputs asserted. -/
def sampleResetInputs : TickInputs :=
  { reset := true, ar_valid := false, ar_addr := 0, ar_id := 0, ar_size := 0, ar_len := 0,
    aw_valid := false, aw_addr := 0, aw_id := 0, aw_size := 0, aw_len := 0,
    w_valid := false, w_strb := 0, w_data := [], w_last := false,
    r_ready := true, b_ready := true }

/-- The request of the split example: address 60, length 16. -/
def sampleRequest : BusRequest :=
  { axiId := 1, virtualAddress := 60, byteLength := 16, kind := RequestKind.Read,
    payload := [], burstBeats := 1 }

end Osseous

namespace Vanadis

/-! ## `VanadisShiftRightArithmeticInstruction` (vsra.h) -/

/-- The value of type `int64_t` that a 64-bit pattern stands for (two's
complement). -/
def toInt64 (bits : Nat) : Int :=
  if bits % 2 ^ 64 < 2 ^ 63 then ((bits % 2 ^ 64 : Nat) : Int)
  else ((bits % 2 ^ 64 : Nat) : Int) - 2 ^ 64

/-- The 64-bit pattern of an integer (two's complement, wrapping). -/
def toBits64 (v : Int) : Nat := (v % 2 ^ 64).toNat

/-- The register file: the header `vregfile.h` is not part of the sources at
hand; the integer registers are taken as a store of 64-bit patterns indexed by
the physical register number. -/
structure VanadisRegisterFile where
  int_reg_storage : Nat → Nat

/-- The call `regFile->getIntReg(reg, &val)`: the value of the register read
as an `int64_t`. -/
def VanadisRegisterFile.getIntReg (regFile : VanadisRegisterFile) (reg : Nat) : Int :=
  toInt64 (regFile.int_reg_storage reg)

/-- The call `regFile->setIntReg(reg, val)`: only register `reg` changes. -/
def VanadisRegisterFile.setIntReg (regFile : VanadisRegisterFile) (reg : Nat) (val : Int) :
    VanadisRegisterFile :=
  { int_reg_storage := fun r => if r = reg then toBits64 val else regFile.int_reg_storage r }

/-- The instruction object: the registers set by the constructor (vsra.h, lines
12-25; two integer inputs, one integer output), the physical registers assigned
to them, and the executed flag of the base class `VanadisInstruction`. -/
structure VanadisShiftRightArithmeticInstruction where
  id : Nat
  addr : Nat
  hw_thr : Nat
  isa_int_regs_in : Nat × Nat
  isa_int_regs_out : Nat
  phys_int_regs_in : Nat × Nat
  phys_int_regs_out : Nat
  hasExecuted : Bool
deriving DecidableEq, Repr

/-- The constructor of vsra.h, lines 12-25. -/
def VanadisShiftRightArithmeticInstruction.new (id addr hw_thr dest src_1 src_2 : Nat) :
    VanadisShiftRightArithmeticInstruction :=
  { id := id, addr := addr, hw_thr := hw_thr, isa_int_regs_in := (src_1, src_2),
    isa_int_regs_out := dest, phys_int_regs_in := (0, 0), phys_int_regs_out := 0,
    hasExecuted := false }

/-- The call `markExecuted()` of the base class. -/
def VanadisShiftRightArithmeticInstruction.markExecuted
    (ins : VanadisShiftRightArithmeticInstruction) : VanadisShiftRightArithmeticInstruction :=
  { ins with hasExecuted := true }

/-- The expression `a >> b` on two `int64_t` operands, computed on the 64-bit
pattern of `a`: the pattern is shifted right by `b` places and, when the sign
bit of `a` is set, the `b` vacated top bits are set. The expression has no
value when `b` is negative or at least 64. -/
def shiftRightInt64 (a b : Int) : Option Int :=
  if 0 ≤ b ∧ b < 64 then
    let n := b.toNat
    let bits := toBits64 a
    if bits.testBit 63 then
      some (toInt64 ((bits >>> n) ||| ((2 ^ n - 1) <<< (64 - n))))
    else
      some (toInt64 (bits >>> n))
  else none

/-- The method `execute` (vsra.h, lines 41-56): read the two source registers,
write `src_1 >> src_2` to the destination register, mark the instruction as
executed. -/
def VanadisShiftRightArithmeticInstruction.execute
    (ins : VanadisShiftRightArithmeticInstruction) (regFile : VanadisRegisterFile) :
    Option (VanadisShiftRightArithmeticInstruction × VanadisRegisterFile) :=
  let src_1 := regFile.getIntReg ins.phys_int_regs_in.1
  let src_2 := regFile.getIntReg ins.phys_int_regs_in.2
  (shiftRightInt64 src_1 src_2).map
    (fun r => (ins.markExecuted, regFile.setIntReg ins.phys_int_regs_out r))

/-- A register file used to instantiate the theorems: register 1 holds -37
(as a 64-bit pattern), register 2 holds 3, the others 0. -/
def sampleRegFile : VanadisRegisterFile :=
  { int_reg_storage := fun r => if r = 1 then 2 ^ 64 - 37 else if r = 2 then 3 else 0 }

/-- An instruction used to instantiate the theorems: physical sources 1 and 2,
physical destination 5. -/
def sampleSra : VanadisShiftRightArithmeticInstruction :=
  { VanadisShiftRightArithmeticInstruction.new 0 4096 0 9 7 8 with
    phys_int_regs_in := (1, 2), phys_int_regs_out := 5 }

end Vanadis

namespace Osseous

/-! ## Theorems on the accessors -/

/-- C1: for every engine state `AXI_aw_ready` is true exactly when
`store_inflight` is false; hence while a write burst is in flight
(`store_inflight` true) the write-address-ready output is false and a second
write-address handshake (valid and ready) cannot complete. -/
theorem AXI_aw_ready_iff_not_store_inflight (s : Rtlmodel) :
    (AXI_aw_ready s = true ↔ s.store_inflight = false) ∧
    (s.store_inflight = true → AXI_aw_ready s = false) ∧
    (s.store_inflight = true → ∀ aw_valid : Bool, (aw_valid && AXI_aw_ready s) = false) := by
  cases h : s.store_inflight <;> simp [AXI_aw_ready, h]

/-- C1 at a state with a write burst in flight. -/
theorem AXI_aw_ready_iff_not_store_inflight_witness :
    sampleBusy.store_inflight = true ∧ AXI_aw_ready sampleBusy = false ∧
    (true && AXI_aw_ready sampleBusy) = false :=
  ⟨rfl, (AXI_aw_ready_iff_not_store_inflight sampleBusy).2.1 rfl,
    (AXI_aw_ready_iff_not_store_inflight sampleBusy).2.2 rfl true⟩

/-- C2: for every engine state `AXI_w_ready` is true exactly when
`store_inflight` is true. -/
theorem AXI_w_ready_iff_store_inflight (s : Rtlmodel) :
    AXI_w_ready s = true ↔ s.store_inflight = true := by
  simp [AXI_w_ready]

/-- C3: for every engine state `AXI_r_valid` is true exactly when `rresp` is
non-empty, and then `AXI_r_id`, `AXI_r_last` and `AXI_r_data` present the id, the
last flag and the data vector of the front of `rresp`. -/
theorem AXI_r_valid_iff_and_front (s : Rtlmodel) :
    (AXI_r_valid s = true ↔ s.rresp ≠ []) ∧
    (AXI_r_valid s = true →
      ∃ r rest, s.rresp = r :: rest ∧
        AXI_r_id s = some r.id ∧ AXI_r_last s = some r.last ∧
        AXI_r_data s = some { buffer := r.data, index := 0 }) := by
  cases h : s.rresp with
  | nil => simp [AXI_r_valid, queue_empty, h]
  | cons r rest =>
    simp [AXI_r_valid, AXI_r_id, AXI_r_last, AXI_r_data, queue_empty, queue_front, h]

/-- C3 at a state with one queued read response. -/
theorem AXI_r_valid_iff_and_front_witness :
    AXI_r_valid sampleBusy = true ∧
    ∃ r rest, sampleBusy.rresp = r :: rest ∧
      AXI_r_id sampleBusy = some r.id ∧ AXI_r_last sampleBusy = some r.last ∧
      AXI_r_data sampleBusy = some { buffer := r.data, index := 0 } :=
  ⟨rfl, (AXI_r_valid_iff_and_front sampleBusy).2 rfl⟩

/-- C4: for every engine state `AXI_b_valid` is true exactly when `bresp` is
non-empty, and then `AXI_b_id` is the front element of `bresp`. -/
theorem AXI_b_valid_iff_and_front (s : Rtlmodel) :
    (AXI_b_valid s = true ↔ s.bresp ≠ []) ∧
    (AXI_b_valid s = true →
      ∃ b rest, s.bresp = b :: rest ∧ AXI_b_id s = some b) := by
  cases h : s.bresp with
  | nil => simp [AXI_b_valid, queue_empty, h]
  | cons b rest => simp [AXI_b_valid, AXI_b_id, queue_empty, queue_front, h]

/-- C4 at a state with two queued write responses. -/
theorem AXI_b_valid_iff_and_front_witness :
    AXI_b_valid sampleBusy = true ∧
    ∃ b rest, sampleBusy.bresp = b :: rest ∧ AXI_b_id sampleBusy = some b :=
  ⟨rfl, (AXI_b_valid_iff_and_front sampleBusy).2 rfl⟩

/-- C7: for every engine state, whatever the latch and the queues hold,
`AXI_ar_ready` is true. -/
theorem AXI_ar_ready_always (s : Rtlmodel) : AXI_ar_ready s = true := rfl

/-- C8: the accessors never take the front of an empty queue: every call of
`AXI_r_id`, `AXI_r_last` and `AXI_b_id` has a value, and on an empty `rresp`
(resp. `bresp`) the value is 0, false (resp. 0). -/
theorem accessors_never_read_empty_front (s : Rtlmodel) :
    (AXI_r_id s).isSome = true ∧ (AXI_r_last s).isSome = true ∧
    (AXI_b_id s).isSome = true ∧
    (s.rresp = [] → AXI_r_id s = some 0 ∧ AXI_r_last s = some false) ∧
    (s.bresp = [] → AXI_b_id s = some 0) := by
  refine ⟨?_, ?_, ?_, ?_, ?_⟩
  · cases h : s.rresp <;> simp [AXI_r_id, AXI_r_valid, queue_empty, queue_front, h]
  · cases h : s.rresp <;> simp [AXI_r_last, AXI_r_valid, queue_empty, queue_front, h]
  · cases h : s.bresp <;> simp [AXI_b_id, AXI_b_valid, queue_empty, queue_front, h]
  · intro h
    simp [AXI_r_id, AXI_r_last, AXI_r_valid, queue_empty, h]
  · intro h
    simp [AXI_b_id, AXI_b_valid, queue_empty, h]

/-- C8 at a state whose two response queues are empty. -/
theorem accessors_never_read_empty_front_witness :
    AXI_r_id { sampleBusy with rresp := [] } = some 0 ∧
    AXI_r_last { sampleBusy with rresp := [] } = some false ∧
    AXI_b_id { sampleBusy with bresp := [] } = some 0 :=
  ⟨((accessors_never_read_empty_front { sampleBusy with rresp := [] }).2.2.2.1 rfl).1,
   ((accessors_never_read_empty_front { sampleBusy with rresp := [] }).2.2.2.1 rfl).2,
   (accessors_never_read_empty_front { sampleBusy with bresp := [] }).2.2.2.2 rfl⟩

/-- C9, as amended: for every engine state `AXI_r_data` has a value (it never
takes the front of an empty queue) and addresses index 0 of the data vector of
the front response when `rresp` is non-empty and of `dummy_data` otherwise; the
index 0 is in bounds exactly when that vector is non-empty, so it is in bounds
for every front response with non-empty data and is not for a front response
built by `mm_rresp_t()`, whose data vector is empty. -/
theorem AXI_r_data_selects_buffer (s : Rtlmodel) :
    ∃ p, AXI_r_data s = some p ∧ p.index = 0 ∧
      (s.rresp = [] → p.buffer = s.dummy_data) ∧
      (∀ r rest, s.rresp = r :: rest → p.buffer = r.data) ∧
      (p.inBounds = true ↔ p.buffer ≠ []) ∧
      (∀ r rest, s.rresp = r :: rest → r.data ≠ [] → p.inBounds = true) ∧
      (∀ rest, s.rresp = mm_rresp_t.default :: rest → p.inBounds = false) := by
  cases h : s.rresp with
  | nil =>
    refine ⟨{ buffer := s.dummy_data, index := 0 }, ?_, rfl, ?_, ?_, ?_, ?_, ?_⟩
    · simp [AXI_r_data, AXI_r_valid, queue_empty, h]
    · intro _; rfl
    · intro r rest hcons; cases hcons
    · simp [CharRef.inBounds, List.length_pos]
    · intro r rest hcons; cases hcons
    · intro rest hcons; cases hcons
  | cons r rest =>
    refine ⟨{ buffer := r.data, index := 0 }, ?_, rfl, ?_, ?_, ?_, ?_, ?_⟩
    · simp [AXI_r_data, AXI_r_valid, queue_empty, queue_front, h]
    · intro hnil; cases hnil
    · intro r' rest' hcons
      cases hcons
      rfl
    · simp [CharRef.inBounds, List.length_pos]
    · intro r' rest' hcons hne
      cases hcons
      simp [CharRef.inBounds, List.length_pos, hne]
    · intro rest' hcons
      cases hcons
      simp [CharRef.inBounds, mm_rresp_t.default]

/-- C9, as amended, at a state whose front response carries eight bytes: the
address is that of index 0 of those bytes and is in bounds. -/
theorem AXI_r_data_selects_buffer_witness :
    sampleBusy.rresp = [{ id := 7, data := [1, 2, 3, 4, 5, 6, 7, 8], last := true }] ∧
    ∃ p, AXI_r_data sampleBusy = some p ∧ p.index = 0 ∧
      (sampleBusy.rresp = [] → p.buffer = sampleBusy.dummy_data) ∧
      (∀ r rest, sampleBusy.rresp = r :: rest → p.buffer = r.data) ∧
      (p.inBounds = true ↔ p.buffer ≠ []) ∧
      (∀ r rest, sampleBusy.rresp = r :: rest → r.data ≠ [] → p.inBounds = true) ∧
      (∀ rest, sampleBusy.rresp = mm_rresp_t.default :: rest → p.inBounds = false) :=
  ⟨rfl, AXI_r_data_selects_buffer sampleBusy⟩

/-- C9, as stated, fails at a state whose front response was built by
`mm_rresp_t()`: `AXI_r_data` selects the data vector of that response, which is
empty, so the index 0 it takes the address of is not in bounds. -/
theorem AXI_r_data_default_front_out_of_bounds :
    sampleDefaultFront.rresp = [mm_rresp_t.default] ∧
    AXI_r_valid sampleDefaultFront = true ∧
    AXI_r_data sampleDefaultFront = some { buffer := [], index := 0 } ∧
    (AXI_r_data sampleDefaultFront).map CharRef.inBounds = some false := by
  decide

/-! ## The tick handler on reset -/

/-- C5: immediately after a tick with reset asserted and with no valid signal
asserted, read-response-valid and write-response-valid are false and
write-address-ready is true, whatever the engine state was before. -/
theorem AXI_tick_reset_outputs (byteLengthOf : Nat → Nat → Nat) (e : Engine)
    (inp : TickInputs) (hreset : inp.reset = true) (har : inp.ar_valid = false)
    (haw : inp.aw_valid = false) (hw : inp.w_valid = false) :
    AXI_r_valid (AXI_tick byteLengthOf e inp).axi = false ∧
    AXI_b_valid (AXI_tick byteLengthOf e inp).axi = false ∧
    AXI_aw_ready (AXI_tick byteLengthOf e inp).axi = true := by
  simp [AXI_tick, tickReset, tickReadAddress, tickWriteAddress, tickWriteData,
    tickReadResponse, tickWriteResponse, AXI_r_valid, AXI_b_valid, AXI_aw_ready,
    queue_empty, hreset, har, haw, hw]

/-- C5 at an engine with queued responses and a write burst in flight. -/
theorem AXI_tick_reset_outputs_witness :
    AXI_r_valid sampleEngine.axi = true ∧ AXI_b_valid sampleEngine.axi = true ∧
    AXI_aw_ready sampleEngine.axi = false ∧
    AXI_r_valid (AXI_tick (fun a b => a * b) sampleEngine sampleResetInputs).axi = false ∧
    AXI_b_valid (AXI_tick (fun a b => a * b) sampleEngine sampleResetInputs).axi = false ∧
    AXI_aw_ready (AXI_tick (fun a b => a * b) sampleEngine sampleResetInputs).axi = true :=
  ⟨rfl, rfl, rfl,
    AXI_tick_reset_outputs (fun a b => a * b) sampleEngine sampleResetInputs rfl rfl rfl rfl⟩

end Osseous

namespace Vanadis

/-! ## The arithmetic right shift -/

theorem toBits64_lt (v : Int) : toBits64 v < 2 ^ 64 := by
  unfold toBits64
  have h1 : 0 ≤ v % 2 ^ 64 := Int.emod_nonneg _ (by norm_num)
  have h2 : v % 2 ^ 64 < 2 ^ 64 := Int.emod_lt_of_pos _ (by norm_num)
  omega

theorem toInt64_range (bits : Nat) : -2 ^ 63 ≤ toInt64 bits ∧ toInt64 bits < 2 ^ 63 := by
  unfold toInt64
  have h : bits % 2 ^ 64 < 2 ^ 64 := Nat.mod_lt _ (by norm_num)
  split <;> omega

theorem toBits64_of_nonneg (v : Int) (h0 : 0 ≤ v) (h1 : v < 2 ^ 63) :
    toBits64 v = v.toNat := by
  unfold toBits64
  rw [Int.emod_eq_of_lt h0 (by omega)]

theorem toBits64_of_neg (v : Int) (h0 : v < 0) (h1 : -2 ^ 63 ≤ v) :
    toBits64 v = (v + 2 ^ 64).toNat := by
  unfold toBits64
  have : v % 2 ^ 64 = v + 2 ^ 64 := by
    rw [← Int.add_mul_emod_self_left v (2 ^ 64) 1]
    simp only [mul_one]
    exact Int.emod_eq_of_lt (by omega) (by omega)
  rw [this]

theorem toInt64_toBits64 (v : Int) (h0 : -2 ^ 63 ≤ v) (h1 : v < 2 ^ 63) :
    toInt64 (toBits64 v) = v := by
  rcases lt_or_le v 0 with hneg | hpos
  · rw [toBits64_of_neg v hneg h0]
    unfold toInt64
    have hm : (v + 2 ^ 64).toNat % 2 ^ 64 = (v + 2 ^ 64).toNat :=
      Nat.mod_eq_of_lt (by omega)
    rw [hm]
    split <;> omega
  · rw [toBits64_of_nonneg v hpos h1]
    unfold toInt64
    have hm : v.toNat % 2 ^ 64 = v.toNat := Nat.mod_eq_of_lt (by omega)
    rw [hm]
    split <;> omega

theorem pow_split_64 (n : Nat) (hn : n < 64) : 2 ^ n * 2 ^ (64 - n) = 2 ^ 64 := by
  rw [← pow_add]
  congr 1
  omega

theorem pow_split_63 (n : Nat) (hn : n < 64) : 2 ^ n * 2 ^ (63 - n) = 2 ^ 63 := by
  rw [← pow_add]
  congr 1
  omega

/-- The sign-filled shift of a pattern with the sign bit set is the floor
division of the negative value it stands for. -/
theorem sign_fill_shift (u n : Nat) (hn : n < 64) (hu1 : 2 ^ 63 ≤ u) (hu2 : u < 2 ^ 64) :
    toInt64 ((u >>> n) ||| ((2 ^ n - 1) <<< (64 - n))) = ((u : Int) - 2 ^ 64) / 2 ^ n := by
  have hPQ := pow_split_64 n hn
  have hPH := pow_split_63 n hn
  have hQH : 2 ^ (64 - n) = 2 * 2 ^ (63 - n) := by
    rw [← pow_succ']
    congr 1
    omega
  have hP : 0 < 2 ^ n := Nat.two_pow_pos n
  have hlt : u / 2 ^ n < 2 ^ (64 - n) := by
    rw [Nat.div_lt_iff_lt_mul hP, Nat.mul_comm, hPQ]
    exact hu2
  have hge : 2 ^ (63 - n) ≤ u / 2 ^ n := by
    rw [Nat.le_div_iff_mul_le hP, Nat.mul_comm, hPH]
    exact hu1
  have hor : (u >>> n) ||| ((2 ^ n - 1) <<< (64 - n)) =
      2 ^ (64 - n) * (2 ^ n - 1) + u / 2 ^ n := by
    rw [Nat.shiftRight_eq_div_pow, Nat.shiftLeft_eq, Nat.lor_comm,
      Nat.mul_comm (2 ^ n - 1), ← Nat.mul_add_lt_is_or hlt]
  have hsum : 2 ^ (64 - n) * (2 ^ n - 1) + 2 ^ (64 - n) = 2 ^ 64 := by
    rw [← Nat.mul_succ, Nat.succ_eq_add_one, Nat.sub_add_cancel hP, Nat.mul_comm, hPQ]
  have hH : 2 ^ (63 - n) ≤ 2 ^ 63 := Nat.pow_le_pow_right (by norm_num) (by omega)
  rw [hor]
  have hdiv : ((u : Int) - 2 ^ 64) / 2 ^ n = ((u / 2 ^ n : Nat) : Int) - ((2 ^ (64 - n) : Nat) : Int) := by
    have h1 : ((u : Int) - 2 ^ 64) = (u : Int) + (-((2 ^ (64 - n) : Nat) : Int)) * ((2 ^ n : Nat) : Int) := by
      have : ((2 ^ (64 - n) : Nat) : Int) * ((2 ^ n : Nat) : Int) = 2 ^ 64 := by
        rw [← Int.natCast_mul, Nat.mul_comm, hPQ]
        norm_num
      linarith
    have h2 : ((2 : Int) ^ n) = ((2 ^ n : Nat) : Int) := by norm_num
    rw [h2, h1, Int.add_mul_ediv_right _ _ (by exact_mod_cast hP.ne')]
    push_cast
    ring
  rw [hdiv]
  unfold toInt64
  generalize 2 ^ (64 - n) * (2 ^ n - 1) = A at *
  generalize u / 2 ^ n = D at *
  generalize 2 ^ (64 - n) = Q at *
  generalize 2 ^ (63 - n) = H at *
  have hm : (A + D) % 2 ^ 64 = A + D := Nat.mod_eq_of_lt (by omega)
  rw [hm]
  split <;> omega

/-- The arithmetic right shift of an `int64_t` value by a count in `[0, 64)` is
the floor division by the power of two. -/
theorem shiftRightInt64_eq_ediv (a b : Int) (ha0 : -2 ^ 63 ≤ a) (ha1 : a < 2 ^ 63)
    (hb0 : 0 ≤ b) (hb1 : b < 64) :
    shiftRightInt64 a b = some (a / 2 ^ b.toNat) := by
  have hn : b.toNat < 64 := by omega
  unfold shiftRightInt64
  rw [if_pos ⟨hb0, hb1⟩]
  simp only
  rcases lt_or_le a 0 with hneg | hpos
  · have hb := toBits64_of_neg a hneg ha0
    have hu1 : 2 ^ 63 ≤ toBits64 a := by rw [hb]; omega
    have hu2 : toBits64 a < 2 ^ 64 := toBits64_lt a
    have htb : (toBits64 a).testBit 63 = true := by
      rw [Nat.testBit_to_div_mod]
      have : toBits64 a / 2 ^ 63 = 1 := by omega
      rw [this]
      rfl
    rw [if_pos htb, sign_fill_shift _ _ hn hu1 hu2]
    have : ((toBits64 a : Nat) : Int) - 2 ^ 64 = a := by rw [hb]; omega
    rw [this]
  · have hb := toBits64_of_nonneg a hpos ha1
    have hu : toBits64 a < 2 ^ 63 := by rw [hb]; omega
    have htb : (toBits64 a).testBit 63 = false := Nat.testBit_lt_two_pow hu
    rw [htb]
    simp only [Bool.false_eq_true, if_false]
    rw [Nat.shiftRight_eq_div_pow]
    have hle : toBits64 a / 2 ^ b.toNat ≤ toBits64 a := Nat.div_le_self _ _
    unfold toInt64
    have hm : (toBits64 a / 2 ^ b.toNat) % 2 ^ 64 = toBits64 a / 2 ^ b.toNat :=
      Nat.mod_eq_of_lt (by omega)
    rw [hm, if_pos (by omega)]
    have ha : a = ((toBits64 a : Nat) : Int) := by rw [hb]; omega
    congr 1
    conv_rhs => rw [ha]
    push_cast
    rfl

theorem ediv_pow_range (a : Int) (n : Nat) (ha0 : -2 ^ 63 ≤ a) (ha1 : a < 2 ^ 63) :
    -2 ^ 63 ≤ a / 2 ^ n ∧ a / 2 ^ n < 2 ^ 63 := by
  have hP : (0 : Int) < 2 ^ n := by positivity
  have hP1 : (1 : Int) ≤ 2 ^ n := hP
  constructor
  · rw [Int.le_ediv_iff_mul_le hP]
    nlinarith
  · rw [Int.ediv_lt_iff_lt_mul hP]
    nlinarith

/-- C10: for every register file and every instruction, when the value `s` read
from the second source register satisfies `0 ≤ s < 64`, `execute` returns, the
destination physical register then holds the arithmetic right shift of the
first source value `v` by `s`, which is `⌊v / 2^s⌋`, no other register changes,
and the instruction is marked as executed. -/
theorem execute_shift_right_arithmetic (ins : VanadisShiftRightArithmeticInstruction)
    (regFile : VanadisRegisterFile)
    (hs0 : 0 ≤ regFile.getIntReg ins.phys_int_regs_in.2)
    (hs1 : regFile.getIntReg ins.phys_int_regs_in.2 < 64) :
    ∃ ins' regFile', ins.execute regFile = some (ins', regFile') ∧
      shiftRightInt64 (regFile.getIntReg ins.phys_int_regs_in.1)
          (regFile.getIntReg ins.phys_int_regs_in.2) =
        some (regFile'.getIntReg ins.phys_int_regs_out) ∧
      regFile'.getIntReg ins.phys_int_regs_out =
        ⌊((regFile.getIntReg ins.phys_int_regs_in.1 : Int) : ℚ) /
          (2 : ℚ) ^ (regFile.getIntReg ins.phys_int_regs_in.2).toNat⌋ ∧
      (∀ r, r ≠ ins.phys_int_regs_out →
        regFile'.int_reg_storage r = regFile.int_reg_storage r) ∧
      ins'.hasExecuted = true ∧ ins' = { ins with hasExecuted := true } := by
  obtain ⟨hv0, hv1⟩ := toInt64_range (regFile.int_reg_storage ins.phys_int_regs_in.1)
  have hsh := shiftRightInt64_eq_ediv (regFile.getIntReg ins.phys_int_regs_in.1)
    (regFile.getIntReg ins.phys_int_regs_in.2) hv0 hv1 hs0 hs1
  obtain ⟨hr0, hr1⟩ := ediv_pow_range (regFile.getIntReg ins.phys_int_regs_in.1)
    (regFile.getIntReg ins.phys_int_regs_in.2).toNat hv0 hv1
  have hget : (regFile.setIntReg ins.phys_int_regs_out
      (regFile.getIntReg ins.phys_int_regs_in.1 /
        2 ^ (regFile.getIntReg ins.phys_int_regs_in.2).toNat)).getIntReg
        ins.phys_int_regs_out =
      regFile.getIntReg ins.phys_int_regs_in.1 /
        2 ^ (regFile.getIntReg ins.phys_int_regs_in.2).toNat := by
    simp only [VanadisRegisterFile.getIntReg, VanadisRegisterFile.setIntReg, if_true]
    exact toInt64_toBits64 _ hr0 hr1
  have hfloor : ⌊((regFile.getIntReg ins.phys_int_regs_in.1 : Int) : ℚ) /
        (2 : ℚ) ^ (regFile.getIntReg ins.phys_int_regs_in.2).toNat⌋ =
      regFile.getIntReg ins.phys_int_regs_in.1 /
        2 ^ (regFile.getIntReg ins.phys_int_regs_in.2).toNat := by
    have h := Rat.floor_intCast_div_natCast (regFile.getIntReg ins.phys_int_regs_in.1)
      (2 ^ (regFile.getIntReg ins.phys_int_regs_in.2).toNat)
    push_cast at h
    exact h
  refine ⟨ins.markExecuted, regFile.setIntReg ins.phys_int_regs_out
      (regFile.getIntReg ins.phys_int_regs_in.1 /
        2 ^ (regFile.getIntReg ins.phys_int_regs_in.2).toNat), ?_, ?_, ?_, ?_, rfl, rfl⟩
  · simp only [VanadisShiftRightArithmeticInstruction.execute, hsh, Option.map_some']
  · rw [hsh, hget]
  · rw [hget, hfloor]
  · intro r hr
    simp [VanadisRegisterFile.setIntReg, hr]

/-- C10 at the sample instruction: register 1 holds -37, register 2 holds 3, and
the destination register 5 receives -5. -/
theorem execute_shift_right_arithmetic_witness :
    sampleRegFile.getIntReg sampleSra.phys_int_regs_in.2 = 3 ∧
    ∃ ins' regFile', sampleSra.execute sampleRegFile = some (ins', regFile') ∧
      shiftRightInt64 (sampleRegFile.getIntReg sampleSra.phys_int_regs_in.1)
          (sampleRegFile.getIntReg sampleSra.phys_int_regs_in.2) =
        some (regFile'.getIntReg sampleSra.phys_int_regs_out) ∧
      regFile'.getIntReg sampleSra.phys_int_regs_out =
        ⌊((sampleRegFile.getIntReg sampleSra.phys_int_regs_in.1 : Int) : ℚ) /
          (2 : ℚ) ^ (sampleRegFile.getIntReg sampleSra.phys_int_regs_in.2).toNat⌋ ∧
      (∀ r, r ≠ sampleSra.phys_int_regs_out →
        regFile'.int_reg_storage r = sampleRegFile.int_reg_storage r) ∧
      ins'.hasExecuted = true ∧ ins' = { sampleSra with hasExecuted := true } :=
  ⟨by decide, execute_shift_right_arithmetic sampleSra sampleRegFile (by decide) (by decide)⟩

end Vanadis

namespace Osseous

/-! ## The request splitter -/

theorem alignedRuns_zero_len (L fuel addr : Nat) : alignedRuns L fuel addr 0 = [] := by
  cases fuel <;> simp [alignedRuns]

theorem div_eq_of_mod_add_lt (L addr k : Nat) (hk : addr % L + k < L) :
    (addr + k) / L = addr / L := by
  have hda := Nat.div_add_mod addr L
  apply Nat.div_eq_of_lt_le
  · rw [Nat.mul_comm]; omega
  · rw [Nat.succ_mul, Nat.mul_comm]; omega

theorem alignedRuns_spec (L : Nat) (hL : 0 < L) :
    ∀ fuel addr len, len ≤ fuel →
      ((alignedRuns L fuel addr len).map Prod.snd).sum = len ∧
      (0 < len → (alignedRuns L fuel addr len).length = boundariesCrossed L addr len + 1) ∧
      contiguousFrom addr (alignedRuns L fuel addr len) = true ∧
      (∀ p ∈ alignedRuns L fuel addr len, withinOneLine L p = true) ∧
      (∀ p ∈ alignedRuns L fuel addr len, addr ≤ p.1) := by
  intro fuel
  induction fuel with
  | zero =>
    intro addr len hlen
    have : len = 0 := by omega
    subst this
    simp [alignedRuns, contiguousFrom]
  | succ fuel ih =>
    intro addr len hlen
    rcases Nat.eq_zero_or_pos len with h0 | hpos
    · subst h0
      simp [alignedRuns, contiguousFrom]
    · have hr : addr % L < L := Nat.mod_lt _ hL
      have hda := Nat.div_add_mod addr L
      have hne : len ≠ 0 := by omega
      rw [alignedRuns, if_neg hne]
      simp only
      generalize hrun : min len (L - addr % L) = run
      have hrun1 : 0 < run := by omega
      have hrun2 : run ≤ len := by omega
      have hrun3 : addr % L + run ≤ L := by omega
      obtain ⟨ihsum, ihlen, ihcont, ihline, ihlow⟩ := ih (addr + run) (len - run) (by omega)
      have hline : addr / L = (addr + run - 1) / L := by
        have := div_eq_of_mod_add_lt L addr (run - 1) (by omega)
        rw [← this]
        congr 1
        omega
      refine ⟨?_, ?_, ?_, ?_, ?_⟩
      · simp only [List.map_cons, List.sum_cons, ihsum]
        omega
      · intro _
        rcases Nat.eq_zero_or_pos (len - run) with hz | hrest
        · rw [hz, alignedRuns_zero_len]
          have hlr : run = len := by omega
          simp only [List.length_cons, List.length_nil, boundariesCrossed]
          rw [← hlr, ← hline]
          omega
        · have hfull : run = L - addr % L := by omega
          have hnext : addr + run = L * (addr / L + 1) := by
            rw [Nat.mul_add, Nat.mul_one]; omega
          have hnd : (addr + run) / L = addr / L + 1 := by
            rw [hnext, Nat.mul_div_cancel_left _ hL]
          have hge : addr / L + 1 ≤ (addr + len - 1) / L := by
            rw [Nat.le_div_iff_mul_le hL, Nat.add_mul, Nat.one_mul, Nat.mul_comm]
            omega
          simp only [List.length_cons, ihlen hrest, boundariesCrossed, hnd]
          have heq : addr + run + (len - run) - 1 = addr + len - 1 := by omega
          rw [heq]
          have hq : addr / L ≤ (addr + len - 1) / L := by omega
          omega
      · simp [contiguousFrom, ihcont]
      · intro p hp
        rcases List.mem_cons.mp hp with hp | hp
        · subst hp
          simp [withinOneLine, hrun1, hline]
        · exact ihline p hp
      · intro p hp
        rcases List.mem_cons.mp hp with hp | hp
        · subst hp
          simp
        · have := ihlow p hp
          omega

theorem subRequestsOfRuns_length (resolve : Nat → Translation) (parent : BusRequest) :
    ∀ (runs : List (Nat × Nat)) (nextTxnId : Nat),
      (subRequestsOfRuns resolve parent nextTxnId runs).length = runs.length := by
  intro runs
  induction runs with
  | nil => intro _; simp [subRequestsOfRuns]
  | cons p rest ih =>
    intro nextTxnId
    obtain ⟨a, n⟩ := p
    simp [subRequestsOfRuns, ih]

theorem subRequestsOfRuns_byteLength (resolve : Nat → Translation) (parent : BusRequest) :
    ∀ (runs : List (Nat × Nat)) (nextTxnId : Nat),
      (subRequestsOfRuns resolve parent nextTxnId runs).map (fun s => s.byteLength) =
        runs.map Prod.snd := by
  intro runs
  induction runs with
  | nil => intro _; simp [subRequestsOfRuns]
  | cons p rest ih =>
    intro nextTxnId
    obtain ⟨a, n⟩ := p
    simp [subRequestsOfRuns, ih]

theorem runsOfSubRequests_subRequestsOfRuns (resolve : Nat → Translation)
    (parent : BusRequest) :
    ∀ (runs : List (Nat × Nat)) (nextTxnId : Nat),
      (∀ p ∈ runs, parent.virtualAddress ≤ p.1) →
      runsOfSubRequests parent (subRequestsOfRuns resolve parent nextTxnId runs) = runs := by
  intro runs
  induction runs with
  | nil => intro _ _; simp [subRequestsOfRuns, runsOfSubRequests]
  | cons p rest ih =>
    intro nextTxnId hlow
    obtain ⟨a, n⟩ := p
    have ha : parent.virtualAddress ≤ a := hlow (a, n) (List.mem_cons_self _ _)
    have hrest := ih (nextTxnId + 1) (fun q hq => hlow q (List.mem_cons_of_mem _ hq))
    simp only [runsOfSubRequests] at hrest
    simp only [subRequestsOfRuns, runsOfSubRequests, List.map_cons, hrest]
    congr 2
    omega

/-- The splitter on a request of positive length with a positive line size. -/
theorem splitRequest_spec (cacheLineSize : Nat) (resolve : Nat → Translation)
    (nextTxnId : Nat) (req : BusRequest) (hline : 0 < cacheLineSize)
    (hlen : 0 < req.byteLength) :
    (splitRequest cacheLineSize resolve nextTxnId req).length =
        boundariesCrossed cacheLineSize req.virtualAddress req.byteLength + 1 ∧
      ((splitRequest cacheLineSize resolve nextTxnId req).map (fun s => s.byteLength)).sum =
        req.byteLength ∧
      contiguousFrom req.virtualAddress
        (runsOfSubRequests req (splitRequest cacheLineSize resolve nextTxnId req)) = true ∧
      (∀ p ∈ runsOfSubRequests req (splitRequest cacheLineSize resolve nextTxnId req),
        withinOneLine cacheLineSize p = true) := by
  obtain ⟨hsum, hcount, hcont, hin, hlow⟩ :=
    alignedRuns_spec cacheLineSize hline req.byteLength req.virtualAddress req.byteLength
      (le_refl _)
  unfold splitRequest
  rw [subRequestsOfRuns_length, subRequestsOfRuns_byteLength,
    runsOfSubRequests_subRequestsOfRuns resolve req _ nextTxnId hlow]
  exact ⟨hcount hlen, hsum, hcont, hin⟩

/-- C6: for every request with `byteLength > 0` and every `cacheLineSize > 0`
the splitter (`generateReadRequest` and `generateWriteRequest` alike) yields
one sub-request more than the number of line boundaries the request crosses,
hence exactly one for a request inside one line; the lengths of the
sub-requests sum to `byteLength`; the sub-requests follow one another from
`virtualAddress` without gap, each non-empty and inside one cache line; and a
request at address 60 of length 16 with line size 64 yields exactly two
sub-requests, of lengths 4 and 12. -/
theorem generateRequest_partition (cacheLineSize : Nat) (resolve : Nat → Translation)
    (nextTxnId : Nat) (req : BusRequest) (hline : 0 < cacheLineSize)
    (hlen : 0 < req.byteLength) :
    ((generateReadRequest cacheLineSize resolve nextTxnId req).length =
        boundariesCrossed cacheLineSize req.virtualAddress req.byteLength + 1 ∧
      (generateWriteRequest cacheLineSize resolve nextTxnId req).length =
        boundariesCrossed cacheLineSize req.virtualAddress req.byteLength + 1) ∧
    (req.virtualAddress / cacheLineSize =
        (req.virtualAddress + req.byteLength - 1) / cacheLineSize →
      (generateReadRequest cacheLineSize resolve nextTxnId req).length = 1 ∧
      (generateWriteRequest cacheLineSize resolve nextTxnId req).length = 1) ∧
    (((generateReadRequest cacheLineSize resolve nextTxnId req).map
        (fun s => s.byteLength)).sum = req.byteLength ∧
      ((generateWriteRequest cacheLineSize resolve nextTxnId req).map
        (fun s => s.byteLength)).sum = req.byteLength) ∧
    (contiguousFrom req.virtualAddress
        (runsOfSubRequests req (generateReadRequest cacheLineSize resolve nextTxnId req)) =
          true ∧
      contiguousFrom req.virtualAddress
        (runsOfSubRequests req (generateWriteRequest cacheLineSize resolve nextTxnId req)) =
          true) ∧
    ((∀ p ∈ runsOfSubRequests req (generateReadRequest cacheLineSize resolve nextTxnId req),
        withinOneLine cacheLineSize p = true) ∧
      (∀ p ∈ runsOfSubRequests req (generateWriteRequest cacheLineSize resolve nextTxnId req),
        withinOneLine cacheLineSize p = true)) ∧
    (∀ r : BusRequest, r.virtualAddress = 60 → r.byteLength = 16 →
      (generateReadRequest 64 resolve nextTxnId r).map (fun s => s.byteLength) = [4, 12] ∧
      (generateWriteRequest 64 resolve nextTxnId r).map (fun s => s.byteLength) = [4, 12]) := by
  obtain ⟨hr1, hr2, hr3, hr4⟩ := splitRequest_spec cacheLineSize resolve nextTxnId
    { req with kind := RequestKind.Read } hline hlen
  obtain ⟨hw1, hw2, hw3, hw4⟩ := splitRequest_spec cacheLineSize resolve nextTxnId
    { req with kind := RequestKind.Write } hline hlen
  refine ⟨⟨hr1, hw1⟩, ?_, ⟨hr2, hw2⟩, ⟨hr3, hw3⟩, ⟨hr4, hw4⟩, ?_⟩
  · intro hsame
    have hb : boundariesCrossed cacheLineSize req.virtualAddress req.byteLength = 0 := by
      unfold boundariesCrossed
      omega
    exact ⟨by rw [show (generateReadRequest cacheLineSize resolve nextTxnId req).length = _
        from hr1, hb],
      by rw [show (generateWriteRequest cacheLineSize resolve nextTxnId req).length = _
        from hw1, hb]⟩
  · intro r ha hl
    have hruns : alignedRuns 64 16 60 16 = [(60, 4), (64, 12)] := by decide
    constructor
    · unfold generateReadRequest splitRequest
      rw [subRequestsOfRuns_byteLength]
      simp only [ha, hl, hruns, List.map_cons, List.map_nil]
    · unfold generateWriteRequest splitRequest
      rw [subRequestsOfRuns_byteLength]
      simp only [ha, hl, hruns, List.map_cons, List.map_nil]

/-- C6 at the request of address 60 and length 16 with line size 64: one
boundary is crossed and the two sub-requests have lengths 4 and 12. -/
theorem generateRequest_partition_witness :
    boundariesCrossed 64 sampleRequest.virtualAddress sampleRequest.byteLength = 1 ∧
    (generateReadRequest 64 Translation.physical 0 sampleRequest).length = 2 ∧
    (generateReadRequest 64 Translation.physical 0 sampleRequest).map
      (fun s => s.byteLength) = [4, 12] ∧
    (generateWriteRequest 64 Translation.physical 0 sampleRequest).map
      (fun s => s.byteLength) = [4, 12] :=
  ⟨by decide,
    (generateRequest_partition 64 Translation.physical 0 sampleRequest
      (by decide) (by decide)).1.1,
    ((generateRequest_partition 64 Translation.physical 0 sampleRequest
      (by decide) (by decide)).2.2.2.2.2 sampleRequest rfl rfl).1,
    ((generateRequest_partition 64 Translation.physical 0 sampleRequest
      (by decide) (by decide)).2.2.2.2.2 sampleRequest rfl rfl).2⟩

end Osseous
